import Mathlib

/-!
Verification of the multi-agent route-animation frame generator of the
Warehouse Dashboard repository.

The embedded code is `create_multi_route_animation` from `ui_components.py`
(frame synthesis: interpolation, dwell expansion, synchronization/padding,
progress tracking, and the per-frame finished check), together with the
route-coordinate construction from `app.py`
(`current_route_coords` / `optimized_route_coords`).

Coordinates are modelled as rationals; `numpy.linspace` is embedded with its
exact documented semantics (with `num = 1` it returns the start point, and a
negative `num` raises `ValueError`).
-/

/-- A 2D coordinate, the `{'x': ..., 'y': ...}` dictionaries of the source. -/
structure Point where
  x : ℚ
  y : ℚ
deriving DecidableEq, Repr, Inhabited

/-- `np.linspace(a, b, num)` for `num ≥ 0`: `num` samples from `a` to `b`,
both endpoints included; for `num = 1` numpy returns `[a]`. -/
def linspace (a b : ℚ) (num : ℕ) : List ℚ :=
  if num = 1 then [a]
  else (List.range num).map (fun t : ℕ => a + (t : ℚ) * (b - a) / ((num : ℚ) - 1))

/-- The four per-frame arrays accumulated by the animation loop:
`route_x_frames`, `route_y_frames`, `progress_frames`, `is_picking_frames`. -/
structure Frames where
  xs : List ℚ
  ys : List ℚ
  progress : List ℕ
  picking : List Bool
deriving DecidableEq, Repr, Inhabited

/-- Concatenation of the four frame arrays (the `extend` calls). -/
def Frames.append (f g : Frames) : Frames :=
  ⟨f.xs ++ g.xs, f.ys ++ g.ys, f.progress ++ g.progress, f.picking ++ g.picking⟩

/-- The moving (interpolation) segment of one waypoint pair:
`steps_between` linspace frames tagged with the current stop number,
`is_picking = False`. -/
def movingSeg (sp ep : Point) (S sn : ℕ) : Frames :=
  ⟨linspace sp.x ep.x S, linspace sp.y ep.y S,
   List.replicate S sn, List.replicate S false⟩

/-- The dwell (picking) segment at a stop: `dwell_time` frames holding the
segment endpoint, tagged `is_picking = True`. -/
def dwellSeg (ep : Point) (D sn : ℕ) : Frames :=
  ⟨List.replicate D ep.x, List.replicate D ep.y,
   List.replicate D sn, List.replicate D true⟩

/-- The loop `for i in range(len(coord_path) - 1)` of
`create_multi_route_animation`, with `fuel` remaining iterations, current
index `i` and current `stop_number` `sn`.  Per iteration: interpolated
moving frames, the `stop_number` update
(`if i > 0 and i < len(coord_path) - 1`), and the dwell frames
(`if i < len(coord_path) - 2`). -/
def routeLoop (p : List Point) (S D : ℕ) : ℕ → ℕ → ℕ → Frames
  | 0, _, _ => ⟨[], [], [], []⟩
  | fuel + 1, i, sn =>
    let sp := p.getD i default
    let ep := p.getD (i + 1) default
    let sn2 := if 0 < i ∧ i < p.length - 1 then sn + 1 else sn
    let seg := movingSeg sp ep S sn
    let seg2 := if i + 2 < p.length then seg.append (dwellSeg ep D sn2) else seg
    seg2.append (routeLoop p S D fuel (i + 1) sn2)

/-- The raw (pre-padding) frame sequence of one waypoint path. -/
def rawFrames (p : List Point) (S D : ℕ) : Frames :=
  routeLoop p S D (p.length - 1) 0 0

/-- One route's entry of `route_frames_data`: the frame arrays plus
`total_stops = len(coord_path) - 2`. -/
structure RouteData where
  frames : Frames
  total_stops : ℤ
deriving DecidableEq, Repr, Inhabited

/-- Building one `route_frames_data` entry: an empty `coords` list yields the
empty entry (`if not coord_path: ... continue`), otherwise the raw frames with
`total_stops = len(coord_path) - 2`. -/
def rawRouteData (S D : ℕ) (p : List Point) : RouteData :=
  if p.length = 0 then ⟨⟨[], [], [], []⟩, 0⟩
  else ⟨rawFrames p S D, (p.length : ℤ) - 2⟩

/-- `max_frames`: running maximum of the raw frame counts, starting at 0
(`if len(route_x_frames) > max_frames: max_frames = len(route_x_frames)`). -/
def maxFramesOf (raws : List RouteData) : ℕ :=
  raws.foldl (fun m rd => max m rd.frames.xs.length) 0

/-- The `--- Sync Animations ---` pass for one route: an empty entry is
filled with the depot coordinate, progress 0 and `picking = False`; a shorter
entry is padded by repeating its final frame with `picking = False`. -/
def syncRouteData (start : Point) (mf : ℕ) (rd : RouteData) : RouteData :=
  if rd.frames.xs.length = 0 then
    ⟨⟨List.replicate mf start.x, List.replicate mf start.y,
      List.replicate mf 0, List.replicate mf false⟩, 0⟩
  else if rd.frames.xs.length < mf then
    ⟨⟨rd.frames.xs ++ List.replicate (mf - rd.frames.xs.length) (rd.frames.xs.getLastD 0),
      rd.frames.ys ++ List.replicate (mf - rd.frames.xs.length) (rd.frames.ys.getLastD 0),
      rd.frames.progress ++ List.replicate (mf - rd.frames.xs.length) (rd.frames.progress.getLastD 0),
      rd.frames.picking ++ List.replicate (mf - rd.frames.xs.length) false⟩,
     rd.total_stops⟩
  else rd

/-- The frame-synthesis part of `create_multi_route_animation`: raw frames
per route, then synchronization to the common `max_frames`. -/
def create_multi_route_animation (start : Point) (paths : List (List Point))
    (S D : ℕ) : List RouteData :=
  (paths.map (rawRouteData S D)).map
    (syncRouteData start (maxFramesOf (paths.map (rawRouteData S D))))

/-- The per-frame finished check of the frame loop:
`is_finished = (progress >= total and abs(x - start.x) < 1 and abs(y - start.y) < 1)`. -/
def is_finished (start : Point) (rd : RouteData) (k : ℕ) : Bool :=
  decide (rd.total_stops ≤ (rd.frames.progress.getD k 0 : ℤ))
  && decide (|rd.frames.xs.getD k 0 - start.x| < 1)
  && decide (|rd.frames.ys.getD k 0 - start.y| < 1)

/-- Python-level wrapper recording the exception behaviour of the synthesis
with an integer `steps_between` / `dwell_time`: `np.linspace` raises
`ValueError` on a negative sample count, which happens exactly when some path
has at least two waypoints; a negative `dwell_time` silently contributes zero
dwell frames (`[x] * d == []` for `d <= 0`), matched by `Int.toNat`. -/
def create_multi_route_animationE (start : Point) (paths : List (List Point))
    (S D : ℤ) : Except String (List RouteData) :=
  if S < 0 ∧ paths.any (fun p => decide (2 ≤ p.length)) then
    Except.error "ValueError: Number of samples must be non-negative"
  else
    Except.ok (create_multi_route_animation start paths S.toNat D.toNat)

/-- `node_coords[nid]`: dictionary access, `KeyError` when absent. -/
def lookupNode (node_coords : ℕ → Option Point) (nid : ℕ) : Except String Point :=
  match node_coords nid with
  | some pt => Except.ok pt
  | none => Except.error "KeyError"

/-- The route-coordinate construction of `app.py`:
`[start_coords] + [node_coords[node] for node in route_nodes] + [start_coords]`,
where `start_coords = node_coords[0]`. -/
def resolve_path (node_coords : ℕ → Option Point) (stop_ids : List ℕ) :
    Except String (List Point) := do
  let start_coords ← lookupNode node_coords 0
  let mids ← stop_ids.mapM (lookupNode node_coords)
  return [start_coords] ++ mids ++ [start_coords]

/-- Concrete location table used by witnesses. -/
def exampleLocs : ℕ → Option Point := fun n =>
  match n with
  | 0 => some ⟨0, 0⟩
  | 1 => some ⟨2, 3⟩
  | 2 => some ⟨4, 5⟩
  | 3 => some ⟨6, 7⟩
  | _ => none

example : (rawFrames [⟨0,0⟩, ⟨3,4⟩, ⟨0,0⟩] 5 3).xs.length = 13 := by decide
example : (linspace 0 1 1) = [0] := by decide
example : (linspace 0 2 3) = [0, 1, 2] := by
  norm_num [linspace, List.range_succ]

/-! ### Basic facts about `linspace` -/

theorem linspace_length (a b : ℚ) (num : ℕ) : (linspace a b num).length = num := by
  unfold linspace
  split
  · simp [*]
  · simp

theorem linspace_head? (a b : ℚ) {num : ℕ} (h : 1 ≤ num) :
    (linspace a b num).head? = some a := by
  obtain ⟨m, rfl⟩ : ∃ m, num = m + 1 := ⟨num - 1, by omega⟩
  unfold linspace
  split
  · rfl
  · rw [List.range_succ_eq_map]
    simp

theorem linspace_getLast? (a b : ℚ) {num : ℕ} (h : 2 ≤ num) :
    (linspace a b num).getLast? = some b := by
  obtain ⟨m, rfl⟩ : ∃ m, num = m + 1 := ⟨num - 1, by omega⟩
  have hm : 1 ≤ m := by omega
  unfold linspace
  split
  · omega
  · rw [List.range_succ, List.map_append]
    simp only [List.map_cons, List.map_nil, List.getLast?_concat]
    have hm0 : ((m : ℚ)) ≠ 0 := by
      have : m ≠ 0 := by omega
      exact_mod_cast this
    have hcast : ((m + 1 : ℕ) : ℚ) - 1 = (m : ℚ) := by push_cast; ring
    rw [hcast]
    congr 1
    field_simp

theorem linspace_self {a q : ℚ} {num : ℕ} (h : q ∈ linspace a a num) : q = a := by
  unfold linspace at h
  split at h
  · simpa using h
  · simp only [List.mem_map, List.mem_range] at h
    obtain ⟨t, -, rfl⟩ := h
    ring

/-! ### Lengths of the raw frame arrays -/

theorem routeLoop_lens (p : List Point) (S D : ℕ) :
    ∀ fuel i sn,
      (routeLoop p S D fuel i sn).ys.length = (routeLoop p S D fuel i sn).xs.length ∧
      (routeLoop p S D fuel i sn).progress.length = (routeLoop p S D fuel i sn).xs.length ∧
      (routeLoop p S D fuel i sn).picking.length = (routeLoop p S D fuel i sn).xs.length := by
  intro fuel
  induction fuel with
  | zero => intro i sn; simp [routeLoop]
  | succ f ih =>
    intro i sn
    obtain ⟨h1, h2, h3⟩ := ih (i + 1) (if 0 < i ∧ i < p.length - 1 then sn + 1 else sn)
    simp only [routeLoop, Frames.append, movingSeg, dwellSeg]
    split <;>
      simp_all [linspace_length]

theorem routeLoop_xs_length (p : List Point) (S D : ℕ) :
    ∀ fuel i sn,
      (routeLoop p S D fuel i sn).xs.length =
        fuel * S + min fuel (p.length - 2 - i) * D := by
  intro fuel
  induction fuel with
  | zero => intro i sn; simp [routeLoop]
  | succ f ih =>
    intro i sn
    simp only [routeLoop, Frames.append, movingSeg, dwellSeg]
    by_cases hd : i + 2 < p.length
    · have hmin : min (f + 1) (p.length - 2 - i) = min f (p.length - 2 - (i + 1)) + 1 := by
        omega
      simp only [hd, if_true, ite_true]
      simp [linspace_length, ih (i + 1), hmin]
      ring
    · have hmin : min (f + 1) (p.length - 2 - i) = min f (p.length - 2 - (i + 1)) := by
        omega
      simp only [hd, if_false, ite_false]
      simp [linspace_length, ih (i + 1), hmin]
      ring

theorem rawFrames_xs_length (p : List Point) (S D : ℕ) (h : 2 ≤ p.length) :
    (rawFrames p S D).xs.length = (p.length - 1) * S + (p.length - 2) * D := by
  unfold rawFrames
  rw [routeLoop_xs_length]
  have : min (p.length - 1) (p.length - 2 - 0) = p.length - 2 := by omega
  rw [this]

/-! ### Bounds on the recorded stop numbers -/

theorem routeLoop_progress_lb (p : List Point) (S D : ℕ) :
    ∀ fuel i sn, ∀ v ∈ (routeLoop p S D fuel i sn).progress, sn ≤ v := by
  intro fuel
  induction fuel with
  | zero => intro i sn v hv; simp [routeLoop] at hv
  | succ f ih =>
    intro i sn v hv
    have hsn2 : sn ≤ (if 0 < i ∧ i < p.length - 1 then sn + 1 else sn) := by
      split <;> omega
    simp only [routeLoop, Frames.append, movingSeg, dwellSeg] at hv
    split at hv
    · simp only [List.mem_append, List.mem_replicate] at hv
      rcases hv with (⟨-, rfl⟩ | ⟨-, rfl⟩) | hv
      · exact le_refl _
      · exact hsn2
      · exact le_trans hsn2 (ih (i + 1) _ v hv)
    · simp only [List.mem_append, List.mem_replicate] at hv
      rcases hv with ⟨-, rfl⟩ | hv
      · exact le_refl _
      · exact le_trans hsn2 (ih (i + 1) _ v hv)

theorem routeLoop_progress_ub (p : List Point) (S D : ℕ) :
    ∀ fuel i sn, 1 ≤ i → i + fuel ≤ p.length - 1 →
      ∀ v ∈ (routeLoop p S D fuel i sn).progress, v ≤ sn + (p.length - 2 - i) := by
  intro fuel
  induction fuel with
  | zero => intro i sn _ _ v hv; simp [routeLoop] at hv
  | succ f ih =>
    intro i sn hi hinv v hv
    have hn : i + f + 1 ≤ p.length - 1 := by omega
    have hilt : i < p.length - 1 := by omega
    have hcond : (0 < i ∧ i < p.length - 1) := ⟨hi, hilt⟩
    simp only [routeLoop, Frames.append, movingSeg, dwellSeg, hcond, if_true, ite_true] at hv
    by_cases hd : i + 2 < p.length
    · simp only [hd, if_true, ite_true, List.mem_append, List.mem_replicate] at hv
      rcases hv with (hv | hv) | hv
      · omega
      · have : v = sn + 1 := hv.2
        omega
      · have := ih (i + 1) (sn + 1) (by omega) (by omega) v hv
        omega
    · simp only [hd, if_false, ite_false, List.mem_append, List.mem_replicate] at hv
      rcases hv with hv | hv
      · omega
      · rcases Nat.eq_zero_or_pos f with hf | hf
        · subst hf; simp [routeLoop] at hv
        · have := ih (i + 1) (sn + 1) (by omega) (by omega) v hv
          omega

theorem rawFrames_progress_ub (p : List Point) (S D : ℕ) (h3 : 3 ≤ p.length) :
    ∀ v ∈ (rawFrames p S D).progress, v ≤ p.length - 3 := by
  intro v hv
  obtain ⟨f, hf⟩ : ∃ f, p.length - 1 = f + 1 := ⟨p.length - 2, by omega⟩
  unfold rawFrames at hv
  rw [hf] at hv
  have hc : ¬(0 < 0 ∧ 0 < p.length - 1) := by simp
  have hd : 0 + 2 < p.length := by omega
  simp only [routeLoop, Frames.append, movingSeg, dwellSeg, hc, if_false, ite_false,
    hd, if_true, ite_true, List.mem_append, List.mem_replicate] at hv
  rcases hv with (hv | hv) | hv
  · omega
  · omega
  · have := routeLoop_progress_ub p S D f 1 0 (by omega) (by omega) v hv
    omega

/-! ### Monotonicity of the recorded stop numbers -/

theorem chain_le_replicate (m v : ℕ) : (List.replicate m v).Chain' (· ≤ ·) :=
  List.chain'_replicate_of_rel m (le_refl v)

theorem chain_le_append {l1 l2 : List ℕ} (h1 : l1.Chain' (· ≤ ·))
    (h2 : l2.Chain' (· ≤ ·)) (h : ∀ x ∈ l1, ∀ y ∈ l2, x ≤ y) :
    (l1 ++ l2).Chain' (· ≤ ·) := by
  rw [List.chain'_append]
  refine ⟨h1, h2, fun x hx y hy => ?_⟩
  exact h x (List.mem_of_mem_getLast? hx) y (List.mem_of_mem_head? hy)

theorem routeLoop_progress_chain (p : List Point) (S D : ℕ) :
    ∀ fuel i sn, (routeLoop p S D fuel i sn).progress.Chain' (· ≤ ·) := by
  intro fuel
  induction fuel with
  | zero => intro i sn; simp [routeLoop]
  | succ f ih =>
    intro i sn
    have hsn2 : sn ≤ (if 0 < i ∧ i < p.length - 1 then sn + 1 else sn) := by
      split <;> omega
    simp only [routeLoop, Frames.append, movingSeg, dwellSeg]
    split
    · rw [List.append_assoc]
      refine chain_le_append (chain_le_replicate _ _) ?_ ?_
      · refine chain_le_append (chain_le_replicate _ _) (ih (i + 1) _) ?_
        intro x hx y hy
        rw [List.eq_of_mem_replicate hx]
        exact routeLoop_progress_lb p S D f (i + 1) _ y hy
      · intro x hx y hy
        rw [List.eq_of_mem_replicate hx]
        rcases List.mem_append.1 hy with hy | hy
        · rw [List.eq_of_mem_replicate hy]; exact hsn2
        · exact le_trans hsn2 (routeLoop_progress_lb p S D f (i + 1) _ y hy)
    · refine chain_le_append (chain_le_replicate _ _) (ih (i + 1) _) ?_
      intro x hx y hy
      rw [List.eq_of_mem_replicate hx]
      exact le_trans hsn2 (routeLoop_progress_lb p S D f (i + 1) _ y hy)

/-! ### The running maximum `max_frames` -/

theorem foldl_max_le_acc (l : List ℕ) : ∀ a : ℕ, a ≤ l.foldl max a := by
  induction l with
  | nil => intro a; exact le_refl a
  | cons b t ih =>
    intro a
    exact le_trans (le_max_left a b) (ih (max a b))

theorem le_foldl_max (l : List ℕ) : ∀ a : ℕ, ∀ x ∈ l, x ≤ l.foldl max a := by
  induction l with
  | nil => intro a x hx; simp at hx
  | cons b t ih =>
    intro a x hx
    rcases List.mem_cons.1 hx with rfl | hx
    · exact le_trans (le_max_right a x) (foldl_max_le_acc t (max a x))
    · exact ih (max a b) x hx

theorem foldl_max_attained (l : List ℕ) :
    ∀ a : ℕ, l.foldl max a = a ∨ l.foldl max a ∈ l := by
  induction l with
  | nil => intro a; left; rfl
  | cons b t ih =>
    intro a
    rcases ih (max a b) with h | h
    · rcases max_choice a b with hab | hab
      · left; rw [List.foldl_cons, h, hab]
      · right; rw [List.foldl_cons, h, hab]; exact List.mem_cons_self b t
    · right; exact List.mem_cons_of_mem b h

theorem maxFramesOf_eq_foldl (raws : List RouteData) :
    maxFramesOf raws = (raws.map (fun rd => rd.frames.xs.length)).foldl max 0 := by
  rw [maxFramesOf, List.foldl_map]

theorem maxFramesOf_ge (raws : List RouteData) :
    ∀ rd ∈ raws, rd.frames.xs.length ≤ maxFramesOf raws := by
  intro rd hrd
  rw [maxFramesOf_eq_foldl]
  exact le_foldl_max _ 0 _ (List.mem_map_of_mem _ hrd)

theorem maxFramesOf_attained (raws : List RouteData) (h : raws ≠ []) :
    ∃ rd ∈ raws, rd.frames.xs.length = maxFramesOf raws := by
  rw [maxFramesOf_eq_foldl]
  rcases foldl_max_attained (raws.map (fun rd => rd.frames.xs.length)) 0 with h0 | hm
  · obtain ⟨rd, hrd⟩ := List.exists_mem_of_ne_nil raws h
    refine ⟨rd, hrd, ?_⟩
    rw [h0]
    have := le_foldl_max (raws.map (fun rd => rd.frames.xs.length)) 0 _
      (List.mem_map_of_mem _ hrd)
    omega
  · obtain ⟨rd, hrd, hlen⟩ := List.mem_map.1 hm
    exact ⟨rd, hrd, hlen⟩

/-! ### The per-route entry of the synthesized output -/

theorem rawRouteData_lens (S D : ℕ) (p : List Point) :
    (rawRouteData S D p).frames.ys.length = (rawRouteData S D p).frames.xs.length ∧
    (rawRouteData S D p).frames.progress.length = (rawRouteData S D p).frames.xs.length ∧
    (rawRouteData S D p).frames.picking.length = (rawRouteData S D p).frames.xs.length := by
  unfold rawRouteData
  split
  · simp
  · exact routeLoop_lens p S D (p.length - 1) 0 0

theorem create_getD (start : Point) (paths : List (List Point)) (S D j : ℕ)
    (hj : j < paths.length) :
    (create_multi_route_animation start paths S D).getD j default =
      syncRouteData start (maxFramesOf (paths.map (rawRouteData S D)))
        (rawRouteData S D (paths.getD j [])) := by
  unfold create_multi_route_animation
  have hj1 : j < ((paths.map (rawRouteData S D)).map
      (syncRouteData start (maxFramesOf (paths.map (rawRouteData S D))))).length := by
    simpa using hj
  rw [List.getD_eq_getElem _ _ hj1, List.getElem_map, List.getElem_map,
    List.getD_eq_getElem _ _ hj]

theorem create_length (start : Point) (paths : List (List Point)) (S D : ℕ) :
    (create_multi_route_animation start paths S D).length = paths.length := by
  unfold create_multi_route_animation
  simp

/-! ### Facts about the synchronization pass -/

theorem getLastD_mem {α : Type} (l : List α) (d : α) (h : l ≠ []) :
    l.getLastD d ∈ l := by
  rw [List.getLastD_eq_getLast?, List.getLast?_eq_getLast l h]
  exact List.getLast_mem h

theorem getD_pad {α : Type} (l : List α) (pad : ℕ) (v d : α) (k : ℕ)
    (h1 : l.length ≤ k) (h2 : k < l.length + pad) :
    (l ++ List.replicate pad v).getD k d = v := by
  rw [List.getD_eq_getElem?_getD, List.getElem?_append_right h1,
    List.getElem?_replicate]
  rw [if_pos (by omega)]
  rfl

theorem syncRouteData_lengths (start : Point) (mf : ℕ) (rd : RouteData)
    (hle : rd.frames.xs.length ≤ mf)
    (hys : rd.frames.ys.length = rd.frames.xs.length)
    (hpr : rd.frames.progress.length = rd.frames.xs.length)
    (hpk : rd.frames.picking.length = rd.frames.xs.length) :
    (syncRouteData start mf rd).frames.xs.length = mf ∧
    (syncRouteData start mf rd).frames.ys.length = mf ∧
    (syncRouteData start mf rd).frames.progress.length = mf ∧
    (syncRouteData start mf rd).frames.picking.length = mf := by
  unfold syncRouteData
  split
  · simp
  · split
    · simp only [List.length_append, List.length_replicate]
      omega
    · omega

theorem syncRouteData_total (start : Point) (mf : ℕ) (rd : RouteData)
    (h : rd.frames.xs.length ≠ 0) :
    (syncRouteData start mf rd).total_stops = rd.total_stops := by
  unfold syncRouteData
  rw [if_neg h]
  split <;> rfl

theorem syncRouteData_pad_content (start : Point) (mf : ℕ) (rd : RouteData) (k : ℕ)
    (h0 : 0 < rd.frames.xs.length)
    (hk1 : rd.frames.xs.length ≤ k) (hk2 : k < mf)
    (hys : rd.frames.ys.length = rd.frames.xs.length)
    (hpr : rd.frames.progress.length = rd.frames.xs.length)
    (hpk : rd.frames.picking.length = rd.frames.xs.length) :
    (syncRouteData start mf rd).frames.xs.getD k 0 = rd.frames.xs.getLastD 0 ∧
    (syncRouteData start mf rd).frames.ys.getD k 0 = rd.frames.ys.getLastD 0 ∧
    (syncRouteData start mf rd).frames.progress.getD k 0 = rd.frames.progress.getLastD 0 ∧
    (syncRouteData start mf rd).frames.picking.getD k false = false := by
  unfold syncRouteData
  rw [if_neg (by omega), if_pos (by omega)]
  refine ⟨?_, ?_, ?_, ?_⟩ <;>
    exact getD_pad _ _ _ _ _ (by omega) (by omega)

theorem syncRouteData_progress_mem (start : Point) (mf : ℕ) (rd : RouteData)
    (h0 : rd.frames.xs.length ≠ 0)
    (hpr : rd.frames.progress.length = rd.frames.xs.length) :
    ∀ v ∈ (syncRouteData start mf rd).frames.progress, v ∈ rd.frames.progress := by
  intro v hv
  unfold syncRouteData at hv
  rw [if_neg h0] at hv
  have hne : rd.frames.progress ≠ [] := by
    intro hnil
    rw [hnil] at hpr
    simp at hpr
    omega
  split at hv
  · rcases List.mem_append.1 hv with hv | hv
    · exact hv
    · rw [List.eq_of_mem_replicate hv]
      exact getLastD_mem _ _ hne
  · exact hv

theorem syncRouteData_progress_chain (start : Point) (mf : ℕ) (rd : RouteData)
    (hchain : rd.frames.progress.Chain' (· ≤ ·)) :
    (syncRouteData start mf rd).frames.progress.Chain' (· ≤ ·) := by
  unfold syncRouteData
  split
  · exact chain_le_replicate mf 0
  · split
    · refine List.chain'_append.2 ⟨hchain, chain_le_replicate _ _, ?_⟩
      intro x hx y hy
      have hy2 : y = rd.frames.progress.getLastD 0 :=
        List.eq_of_mem_replicate (List.mem_of_mem_head? hy)
      have hx2 : rd.frames.progress.getLastD 0 = x := by
        rw [List.getLastD_eq_getLast?, Option.mem_def.1 hx]
        rfl
      omega
    · exact hchain

theorem syncRouteData_xs_mem (start : Point) (mf : ℕ) (rd : RouteData)
    (h0 : rd.frames.xs.length ≠ 0) :
    ∀ v ∈ (syncRouteData start mf rd).frames.xs, v ∈ rd.frames.xs := by
  intro v hv
  unfold syncRouteData at hv
  rw [if_neg h0] at hv
  have hne : rd.frames.xs ≠ [] := by
    intro hnil
    rw [hnil] at h0
    simp at h0
  split at hv
  · rcases List.mem_append.1 hv with hv | hv
    · exact hv
    · rw [List.eq_of_mem_replicate hv]
      exact getLastD_mem _ _ hne
  · exact hv

theorem syncRouteData_ys_mem (start : Point) (mf : ℕ) (rd : RouteData)
    (h0 : rd.frames.xs.length ≠ 0)
    (hys : rd.frames.ys.length = rd.frames.xs.length) :
    ∀ v ∈ (syncRouteData start mf rd).frames.ys, v ∈ rd.frames.ys := by
  intro v hv
  unfold syncRouteData at hv
  rw [if_neg h0] at hv
  have hne : rd.frames.ys ≠ [] := by
    intro hnil
    rw [hnil] at hys
    simp at hys
    omega
  split at hv
  · rcases List.mem_append.1 hv with hv | hv
    · exact hv
    · rw [List.eq_of_mem_replicate hv]
      exact getLastD_mem _ _ hne
  · exact hv

/-! ### The degenerate `[depot, depot]` path -/

theorem rawFrames_pair (d : Point) (S D : ℕ) :
    rawFrames [d, d] S D =
      ⟨linspace d.x d.x S, linspace d.y d.y S,
       List.replicate S 0, List.replicate S false⟩ := by
  show routeLoop [d, d] S D 1 0 0 = _
  simp [routeLoop, movingSeg, Frames.append]

/-! ### Head and last of the raw frame arrays -/

theorem routeLoop_head? (p : List Point) (S D : ℕ) (hS : 1 ≤ S)
    (fuel i sn : ℕ) :
    (routeLoop p S D (fuel + 1) i sn).xs.head? = some ((p.getD i default).x) ∧
    (routeLoop p S D (fuel + 1) i sn).ys.head? = some ((p.getD i default).y) := by
  constructor <;>
    (simp only [routeLoop, Frames.append, movingSeg, dwellSeg]
     split <;> simp [List.head?_append, linspace_head? _ _ hS])

theorem rawFrames_head? (p : List Point) (S D : ℕ) (hS : 1 ≤ S)
    (h2 : 2 ≤ p.length) :
    (rawFrames p S D).xs.head? = some ((p.getD 0 default).x) ∧
    (rawFrames p S D).ys.head? = some ((p.getD 0 default).y) := by
  obtain ⟨f, hf⟩ : ∃ f, p.length - 1 = f + 1 := ⟨p.length - 2, by omega⟩
  unfold rawFrames
  rw [hf]
  exact routeLoop_head? p S D hS f 0 0

theorem routeLoop_getLast? (p : List Point) (S D : ℕ) (hS : 2 ≤ S) :
    ∀ fuel i sn, i + (fuel + 1) = p.length - 1 →
      (routeLoop p S D (fuel + 1) i sn).xs.getLast? =
        some ((p.getD (p.length - 1) default).x) ∧
      (routeLoop p S D (fuel + 1) i sn).ys.getLast? =
        some ((p.getD (p.length - 1) default).y) := by
  intro fuel
  induction fuel with
  | zero =>
    intro i sn hi
    have h2 : 2 ≤ p.length := by omega
    have hnd : ¬ (i + 2 < p.length) := by omega
    have hi1 : i + 1 = p.length - 1 := by omega
    simp only [routeLoop, Frames.append, movingSeg, dwellSeg, hnd, if_false, ite_false]
    rw [← hi1]
    constructor <;>
      simp [linspace_getLast? _ _ hS]
  | succ f ih =>
    intro i sn hi
    have hrec := ih (i + 1) (if 0 < i ∧ i < p.length - 1 then sn + 1 else sn) (by omega)
    have hposx : 0 < (routeLoop p S D (f + 1) (i + 1)
        (if 0 < i ∧ i < p.length - 1 then sn + 1 else sn)).xs.length := by
      rw [routeLoop_xs_length]
      have h1 : 0 < (f + 1) * S := Nat.mul_pos (Nat.succ_pos f) (by omega)
      exact Nat.lt_of_lt_of_le h1 (Nat.le_add_right _ _)
    have hposy : 0 < (routeLoop p S D (f + 1) (i + 1)
        (if 0 < i ∧ i < p.length - 1 then sn + 1 else sn)).ys.length := by
      have := (routeLoop_lens p S D (f + 1) (i + 1)
        (if 0 < i ∧ i < p.length - 1 then sn + 1 else sn)).1
      omega
    have hnex : (routeLoop p S D (f + 1) (i + 1)
        (if 0 < i ∧ i < p.length - 1 then sn + 1 else sn)).xs ≠ [] :=
      List.length_pos.1 hposx
    have hney : (routeLoop p S D (f + 1) (i + 1)
        (if 0 < i ∧ i < p.length - 1 then sn + 1 else sn)).ys ≠ [] :=
      List.length_pos.1 hposy
    constructor
    · conv_lhs => rw [routeLoop]
      simp only [Frames.append]
      rw [List.getLast?_append_of_ne_nil _ hnex]
      exact hrec.1
    · conv_lhs => rw [routeLoop]
      simp only [Frames.append]
      rw [List.getLast?_append_of_ne_nil _ hney]
      exact hrec.2

theorem rawFrames_getLast? (p : List Point) (S D : ℕ) (hS : 2 ≤ S)
    (h2 : 2 ≤ p.length) :
    (rawFrames p S D).xs.getLast? = some ((p.getD (p.length - 1) default).x) ∧
    (rawFrames p S D).ys.getLast? = some ((p.getD (p.length - 1) default).y) := by
  obtain ⟨f, hf⟩ : ∃ f, p.length - 1 = f + 1 := ⟨p.length - 2, by omega⟩
  have h := routeLoop_getLast? p S D hS f 0 0 (by omega)
  rw [← hf] at h
  unfold rawFrames
  exact h

/-! ### The finished check -/

theorem synced_progress_getD_ub (start : Point) (paths : List (List Point))
    (S D j k : ℕ) (hS : 1 ≤ S) (hj : j < paths.length)
    (h3 : 3 ≤ (paths.getD j []).length) :
    ((create_multi_route_animation start paths S D).getD j default).frames.progress.getD k 0 ≤
      (paths.getD j []).length - 3 := by
  rw [create_getD start paths S D j hj]
  have hn0 : ¬ (paths.getD j []).length = 0 := by omega
  have hrawf : (rawRouteData S D (paths.getD j [])).frames =
      rawFrames (paths.getD j []) S D := by
    unfold rawRouteData
    rw [if_neg hn0]
  have hpos : 0 < (rawFrames (paths.getD j []) S D).xs.length := by
    rw [rawFrames_xs_length _ _ _ (by omega)]
    have h1 : 0 < ((paths.getD j []).length - 1) * S :=
      Nat.mul_pos (by omega) (by omega)
    exact Nat.lt_of_lt_of_le h1 (Nat.le_add_right _ _)
  have h0 : (rawRouteData S D (paths.getD j [])).frames.xs.length ≠ 0 := by
    rw [hrawf]
    omega
  have hpr : (rawRouteData S D (paths.getD j [])).frames.progress.length =
      (rawRouteData S D (paths.getD j [])).frames.xs.length :=
    (rawRouteData_lens S D (paths.getD j [])).2.1
  by_cases hk : k < (syncRouteData start (maxFramesOf (paths.map (rawRouteData S D)))
      (rawRouteData S D (paths.getD j []))).frames.progress.length
  · have hmem : (syncRouteData start (maxFramesOf (paths.map (rawRouteData S D)))
        (rawRouteData S D (paths.getD j []))).frames.progress.getD k 0 ∈
        (syncRouteData start (maxFramesOf (paths.map (rawRouteData S D)))
          (rawRouteData S D (paths.getD j []))).frames.progress := by
      rw [List.getD_eq_getElem _ _ hk]
      exact List.getElem_mem _
    have hmem2 := syncRouteData_progress_mem start _ _ h0 hpr _ hmem
    rw [hrawf] at hmem2
    exact rawFrames_progress_ub _ S D h3 _ hmem2
  · rw [List.getD_eq_default _ _ (by omega)]
    exact Nat.zero_le _

theorem finished_false_of_stops (start : Point) (paths : List (List Point))
    (S D j : ℕ) (hS : 1 ≤ S) (h3 : 3 ≤ (paths.getD j []).length) :
    ∀ k, is_finished start
      ((create_multi_route_animation start paths S D).getD j default) k = false := by
  intro k
  have hj : j < paths.length := by
    by_contra hj
    rw [List.getD_eq_default _ _ (by omega)] at h3
    simp at h3
  have hub := synced_progress_getD_ub start paths S D j k hS hj h3
  have hn0 : ¬ (paths.getD j []).length = 0 := by omega
  have hrawf : (rawRouteData S D (paths.getD j [])).frames =
      rawFrames (paths.getD j []) S D := by
    unfold rawRouteData
    rw [if_neg hn0]
  have hrawt : (rawRouteData S D (paths.getD j [])).total_stops =
      ((paths.getD j []).length : ℤ) - 2 := by
    unfold rawRouteData
    rw [if_neg hn0]
  have hpos : 0 < (rawFrames (paths.getD j []) S D).xs.length := by
    rw [rawFrames_xs_length _ _ _ (by omega)]
    have h1 : 0 < ((paths.getD j []).length - 1) * S :=
      Nat.mul_pos (by omega) (by omega)
    exact Nat.lt_of_lt_of_le h1 (Nat.le_add_right _ _)
  have h0 : (rawRouteData S D (paths.getD j [])).frames.xs.length ≠ 0 := by
    rw [hrawf]
    omega
  have htot : ((create_multi_route_animation start paths S D).getD j default).total_stops =
      ((paths.getD j []).length : ℤ) - 2 := by
    rw [create_getD start paths S D j hj, syncRouteData_total _ _ _ h0, hrawt]
  have hfalse : ¬ (((create_multi_route_animation start paths S D).getD j default).total_stops ≤
      (((create_multi_route_animation start paths S D).getD j default).frames.progress.getD k 0 : ℤ)) := by
    rw [htot]
    omega
  unfold is_finished
  rw [decide_eq_false hfalse, Bool.false_and, Bool.false_and]

theorem finished_true_of_depot_pair (start : Point) (paths : List (List Point))
    (S D j : ℕ) (hS : 1 ≤ S) (hj : j < paths.length)
    (hp : paths.getD j [] = [start, start]) :
    ∀ k, k < ((create_multi_route_animation start paths S D).getD j default).frames.xs.length →
      is_finished start
        ((create_multi_route_animation start paths S D).getD j default) k = true := by
  intro k hk
  rw [create_getD start paths S D j hj] at hk ⊢
  rw [hp] at hk ⊢
  have hn0 : ¬ ([start, start] : List Point).length = 0 := by simp
  have hrawf : (rawRouteData S D [start, start]).frames =
      rawFrames [start, start] S D := by
    unfold rawRouteData
    rw [if_neg hn0]
  have hrawt : (rawRouteData S D [start, start]).total_stops = 0 := by
    unfold rawRouteData
    rw [if_neg hn0]
    simp
  have hpair := rawFrames_pair start S D
  have hxlen : (rawRouteData S D [start, start]).frames.xs.length = S := by
    rw [hrawf, hpair, linspace_length]
  have h0 : (rawRouteData S D [start, start]).frames.xs.length ≠ 0 := by
    omega
  have hlens := rawRouteData_lens S D [start, start]
  have hx : (syncRouteData start (maxFramesOf (paths.map (rawRouteData S D)))
      (rawRouteData S D [start, start])).frames.xs.getD k 0 = start.x := by
    have hmem : (syncRouteData start (maxFramesOf (paths.map (rawRouteData S D)))
        (rawRouteData S D [start, start])).frames.xs.getD k 0 ∈
        (syncRouteData start (maxFramesOf (paths.map (rawRouteData S D)))
          (rawRouteData S D [start, start])).frames.xs := by
      rw [List.getD_eq_getElem _ _ hk]
      exact List.getElem_mem _
    have hmem2 := syncRouteData_xs_mem start _ _ h0 _ hmem
    rw [hrawf, hpair] at hmem2
    exact linspace_self hmem2
  have hylen : (syncRouteData start (maxFramesOf (paths.map (rawRouteData S D)))
      (rawRouteData S D [start, start])).frames.ys.length =
      (syncRouteData start (maxFramesOf (paths.map (rawRouteData S D)))
        (rawRouteData S D [start, start])).frames.xs.length := by
    unfold syncRouteData
    rw [if_neg h0]
    split
    · simp only [List.length_append, List.length_replicate]
      omega
    · omega
  have hprlen : (syncRouteData start (maxFramesOf (paths.map (rawRouteData S D)))
      (rawRouteData S D [start, start])).frames.progress.length =
      (syncRouteData start (maxFramesOf (paths.map (rawRouteData S D)))
        (rawRouteData S D [start, start])).frames.xs.length := by
    unfold syncRouteData
    rw [if_neg h0]
    split
    · simp only [List.length_append, List.length_replicate]
      omega
    · omega
  have hy : (syncRouteData start (maxFramesOf (paths.map (rawRouteData S D)))
      (rawRouteData S D [start, start])).frames.ys.getD k 0 = start.y := by
    have hky : k < (syncRouteData start (maxFramesOf (paths.map (rawRouteData S D)))
        (rawRouteData S D [start, start])).frames.ys.length := by
      omega
    have hmem : (syncRouteData start (maxFramesOf (paths.map (rawRouteData S D)))
        (rawRouteData S D [start, start])).frames.ys.getD k 0 ∈
        (syncRouteData start (maxFramesOf (paths.map (rawRouteData S D)))
          (rawRouteData S D [start, start])).frames.ys := by
      rw [List.getD_eq_getElem _ _ hky]
      exact List.getElem_mem _
    have hmem2 := syncRouteData_ys_mem start _ _ h0 hlens.1 _ hmem
    rw [hrawf, hpair] at hmem2
    exact linspace_self hmem2
  have hq : (syncRouteData start (maxFramesOf (paths.map (rawRouteData S D)))
      (rawRouteData S D [start, start])).frames.progress.getD k 0 = 0 := by
    have hkq : k < (syncRouteData start (maxFramesOf (paths.map (rawRouteData S D)))
        (rawRouteData S D [start, start])).frames.progress.length := by
      omega
    have hmem : (syncRouteData start (maxFramesOf (paths.map (rawRouteData S D)))
        (rawRouteData S D [start, start])).frames.progress.getD k 0 ∈
        (syncRouteData start (maxFramesOf (paths.map (rawRouteData S D)))
          (rawRouteData S D [start, start])).frames.progress := by
      rw [List.getD_eq_getElem _ _ hkq]
      exact List.getElem_mem _
    have hmem2 := syncRouteData_progress_mem start _ _ h0 hlens.2.1 _ hmem
    rw [hrawf, hpair] at hmem2
    exact List.eq_of_mem_replicate hmem2
  have ht : (syncRouteData start (maxFramesOf (paths.map (rawRouteData S D)))
      (rawRouteData S D [start, start])).total_stops = 0 := by
    rw [syncRouteData_total _ _ _ h0, hrawt]
  unfold is_finished
  rw [hx, hy, hq, ht]
  simp

/-! ## Claim theorems -/

/-- Claim C1: for a waypoint path of `n ≥ 2` waypoints the raw (pre-padding)
frame sequence has length exactly `(n-1)*steps_between + (n-2)*dwell_time`:
dwell frames follow every segment except the final return-to-depot one. -/
theorem claim_C1_raw_frame_count (p : List Point) (S D : ℕ) (h : 2 ≤ p.length) :
    (rawFrames p S D).xs.length = (p.length - 1) * S + (p.length - 2) * D ∧
    (rawFrames p S D).ys.length = (p.length - 1) * S + (p.length - 2) * D ∧
    (rawFrames p S D).progress.length = (p.length - 1) * S + (p.length - 2) * D ∧
    (rawFrames p S D).picking.length = (p.length - 1) * S + (p.length - 2) * D := by
  have hx := rawFrames_xs_length p S D h
  have hl := routeLoop_lens p S D (p.length - 1) 0 0
  unfold rawFrames
  unfold rawFrames at hx
  exact ⟨hx, hl.1.trans hx, hl.2.1.trans hx, hl.2.2.trans hx⟩

/-- Witness for C1: a 3-waypoint path with `steps_between = 5`,
`dwell_time = 3` yields raw length 13. -/
theorem claim_C1_raw_frame_count_witness :
    (rawFrames [⟨0,0⟩, ⟨3,4⟩, ⟨0,0⟩] 5 3).xs.length = 13 := by
  have h := (claim_C1_raw_frame_count [⟨0,0⟩, ⟨3,4⟩, ⟨0,0⟩] 5 3 (by simp)).1
  simpa using h

/-- Claim C3 counterexample: with `steps_between = 1` the single emitted frame
of a moving segment equals the segment start (`np.linspace` with `num = 1`
returns the start), not the endpoint the claim asserts; consequently for the
path `[(0,0),(5,5),(0,0)]` with `steps_between = 1` the raw x-array is
`[0, 5]`, whose final entry is the stop, not the depot. -/
theorem claim_C3_counterexample :
    (movingSeg ⟨0,0⟩ ⟨1,1⟩ 1 0).xs = [0] ∧ (0 : ℚ) ≠ 1 ∧
    (rawFrames [⟨0,0⟩, ⟨5,5⟩, ⟨0,0⟩] 1 0).xs = [0, 5] ∧ (5 : ℚ) ≠ 0 := by
  refine ⟨by decide, by decide, by decide, by decide⟩

/-- Claim C3 (amended): each moving segment emits exactly `steps_between`
frames; for `steps_between ≥ 2` the first equals `p[i]` and the last equals
`p[i+1]`; for `steps_between = 1` the single emitted frame equals `p[i]` (the
start, per numpy). The first frame of a path equals its first waypoint for
every `steps_between ≥ 1`; the last frame of the final moving segment equals
the final waypoint (the depot) for `steps_between ≥ 2`. -/
theorem claim_C3_amended (sp ep : Point) (S D sn : ℕ) (p : List Point) :
    ((movingSeg sp ep S sn).xs.length = S ∧ (movingSeg sp ep S sn).ys.length = S) ∧
    (2 ≤ S →
      (movingSeg sp ep S sn).xs.head? = some sp.x ∧
      (movingSeg sp ep S sn).ys.head? = some sp.y ∧
      (movingSeg sp ep S sn).xs.getLast? = some ep.x ∧
      (movingSeg sp ep S sn).ys.getLast? = some ep.y) ∧
    (S = 1 → movingSeg sp ep S sn = ⟨[sp.x], [sp.y], [sn], [false]⟩) ∧
    (1 ≤ S → 2 ≤ p.length →
      (rawFrames p S D).xs.head? = some ((p.getD 0 default).x) ∧
      (rawFrames p S D).ys.head? = some ((p.getD 0 default).y)) ∧
    (2 ≤ S → 2 ≤ p.length →
      (rawFrames p S D).xs.getLast? = some ((p.getD (p.length - 1) default).x) ∧
      (rawFrames p S D).ys.getLast? = some ((p.getD (p.length - 1) default).y)) := by
  refine ⟨⟨linspace_length _ _ _, linspace_length _ _ _⟩,
    fun h2 => ⟨linspace_head? _ _ (by omega), linspace_head? _ _ (by omega),
      linspace_getLast? _ _ h2, linspace_getLast? _ _ h2⟩,
    fun h1 => ?_,
    fun h1 h2 => rawFrames_head? p S D h1 h2,
    fun h2 h2' => rawFrames_getLast? p S D h2 h2'⟩
  subst h1
  simp [movingSeg, linspace]

/-- Witness for C3 (amended) at `steps_between = 3` and a 2-waypoint path. -/
theorem claim_C3_amended_witness :
    (movingSeg ⟨0,0⟩ ⟨1,1⟩ 3 0).xs.length = 3 ∧
    (movingSeg ⟨0,0⟩ ⟨1,1⟩ 3 0).xs.getLast? = some 1 ∧
    (rawFrames [⟨0,0⟩, ⟨1,1⟩] 3 0).xs.head? = some 0 := by
  have h := claim_C3_amended ⟨0,0⟩ ⟨1,1⟩ 3 0 0 [⟨0,0⟩, ⟨1,1⟩]
  refine ⟨h.1.1, ?_, ?_⟩
  · have h2 := (h.2.1 (by omega)).2.2.1
    simpa using h2
  · have h2 := (h.2.2.2.1 (by omega) (by simp)).1
    simpa using h2

/-- Claim C9: the degenerate path `[depot, depot]` produces a raw sequence of
exactly `steps_between` frames, all equal to the depot coordinate, and is
padded to `max_frames` like any other path. -/
theorem claim_C9_degenerate_route (d start : Point) (S D mf : ℕ) (hS : 1 ≤ S) :
    (rawFrames [d, d] S D).xs.length = S ∧
    (∀ q ∈ (rawFrames [d, d] S D).xs, q = d.x) ∧
    (∀ q ∈ (rawFrames [d, d] S D).ys, q = d.y) ∧
    (S ≤ mf →
      (syncRouteData start mf (rawRouteData S D [d, d])).frames.xs.length = mf) := by
  have hpair := rawFrames_pair d S D
  refine ⟨?_, ?_, ?_, ?_⟩
  · rw [hpair]
    exact linspace_length _ _ _
  · intro q hq
    rw [hpair] at hq
    exact linspace_self hq
  · intro q hq
    rw [hpair] at hq
    exact linspace_self hq
  · intro hmf
    have hn0 : ¬ ([d, d] : List Point).length = 0 := by simp
    have hrawf : (rawRouteData S D [d, d]).frames = rawFrames [d, d] S D := by
      unfold rawRouteData
      rw [if_neg hn0]
    have hxlen : (rawRouteData S D [d, d]).frames.xs.length = S := by
      rw [hrawf, hpair]
      exact linspace_length _ _ _
    unfold syncRouteData
    rw [if_neg (by omega)]
    by_cases hlt : (rawRouteData S D [d, d]).frames.xs.length < mf
    · rw [if_pos hlt]
      simp only [List.length_append, List.length_replicate]
      omega
    · rw [if_neg hlt]
      omega

/-- Witness for C9 with `steps_between = 4`, `dwell_time = 7`, padded to 9. -/
theorem claim_C9_degenerate_route_witness :
    (rawFrames [⟨2,3⟩, ⟨2,3⟩] 4 7).xs.length = 4 ∧
    (syncRouteData ⟨2,3⟩ 9 (rawRouteData 4 7 [⟨2,3⟩, ⟨2,3⟩])).frames.xs.length = 9 := by
  have h := claim_C9_degenerate_route ⟨2,3⟩ ⟨2,3⟩ 4 7 9 (by omega)
  exact ⟨h.1, h.2.2.2 (by omega)⟩

/-- Claim C10: frame synthesis is deterministic — it is a pure function of its
inputs, so two calls with equal inputs give equal outputs. -/
theorem claim_C10_deterministic (s1 s2 : Point) (P1 P2 : List (List Point))
    (S1 S2 D1 D2 : ℕ) (hs : s1 = s2) (hP : P1 = P2) (hS : S1 = S2)
    (hD : D1 = D2) :
    create_multi_route_animation s1 P1 S1 D1 =
      create_multi_route_animation s2 P2 S2 D2 := by
  rw [hs, hP, hS, hD]

/-- Witness for C10 at a concrete input. -/
theorem claim_C10_deterministic_witness :
    create_multi_route_animation ⟨0,0⟩ [[⟨0,0⟩, ⟨1,1⟩, ⟨0,0⟩]] 5 3 =
      create_multi_route_animation ⟨0,0⟩ [[⟨0,0⟩, ⟨1,1⟩, ⟨0,0⟩]] 5 3 :=
  claim_C10_deterministic ⟨0,0⟩ ⟨0,0⟩ _ _ 5 5 3 3 rfl rfl rfl rfl

/-- Claim C6 counterexample: with `steps_between = 0 < 1` the synthesis does
not fail — it silently produces frames (the dwell frames of the single stop),
so no `InvalidArgument` rejection exists in the code. -/
theorem claim_C6_counterexample :
    create_multi_route_animationE ⟨0,0⟩ [[⟨0,0⟩, ⟨1,0⟩, ⟨0,0⟩]] 0 3 =
      Except.ok [⟨⟨[1,1,1], [0,0,0], [0,0,0], [true,true,true]⟩, 1⟩] := by
  rfl

/-- Claim C6 (amended): the synthesis performs no parameter validation.  For
any `steps_between ≥ 0` (including 0) and any `dwell_time` (including negative
values, which contribute zero dwell frames) it succeeds; a negative
`steps_between` fails with numpy's `ValueError` — raised only when the first
moving segment of a path with at least two waypoints is interpolated, and not
at all when no such path exists. -/
theorem claim_C6_amended (start : Point) (paths : List (List Point)) (S D : ℤ) :
    (0 ≤ S → create_multi_route_animationE start paths S D =
      Except.ok (create_multi_route_animation start paths S.toNat D.toNat)) ∧
    (S < 0 → (∃ p ∈ paths, 2 ≤ p.length) →
      create_multi_route_animationE start paths S D =
        Except.error "ValueError: Number of samples must be non-negative") ∧
    (S < 0 → (∀ p ∈ paths, p.length < 2) →
      create_multi_route_animationE start paths S D =
        Except.ok (create_multi_route_animation start paths S.toNat D.toNat)) := by
  unfold create_multi_route_animationE
  refine ⟨fun h0 => ?_, fun hneg hex => ?_, fun hneg hall => ?_⟩
  · rw [if_neg]
    rintro ⟨h1, -⟩
    omega
  · rw [if_pos]
    refine ⟨hneg, ?_⟩
    obtain ⟨p, hp, hlen⟩ := hex
    exact List.any_eq_true.2 ⟨p, hp, by simpa using hlen⟩
  · rw [if_neg]
    rintro ⟨-, h2⟩
    obtain ⟨p, hp, hlen⟩ := List.any_eq_true.1 h2
    have := hall p hp
    simp at hlen
    omega

/-- Witness for C6 (amended): a negative `steps_between` with a real path
yields the `ValueError`. -/
theorem claim_C6_amended_witness :
    create_multi_route_animationE ⟨0,0⟩ [[⟨0,0⟩, ⟨1,0⟩, ⟨0,0⟩]] (-1) 3 =
      Except.error "ValueError: Number of samples must be non-negative" := by
  have h := (claim_C6_amended ⟨0,0⟩ [[⟨0,0⟩, ⟨1,0⟩, ⟨0,0⟩]] (-1) 3).2.1
  exact h (by omega) ⟨[⟨0,0⟩, ⟨1,0⟩, ⟨0,0⟩], by simp, by simp⟩

/-! ### The waypoint resolver -/

theorem mapM_lookup_ok (locs : ℕ → Option Point) (ids : List ℕ)
    (h : ∀ i ∈ ids, (locs i).isSome) :
    ids.mapM (lookupNode locs) =
      Except.ok (ids.map (fun i => (locs i).getD default)) := by
  induction ids with
  | nil => rfl
  | cons a t ih =>
    have ha := h a (List.mem_cons_self a t)
    obtain ⟨pa, hpa⟩ := Option.isSome_iff_exists.1 ha
    have hrec := ih (fun i hi => h i (List.mem_cons_of_mem a hi))
    rw [List.mapM_cons, hrec, List.map_cons, hpa]
    simp only [lookupNode, hpa]
    rfl

theorem mapM_lookup_err (locs : ℕ → Option Point) (ids : List ℕ)
    (h : ∃ i ∈ ids, locs i = none) :
    ∃ e, ids.mapM (lookupNode locs) = Except.error e := by
  induction ids with
  | nil => simp at h
  | cons a t ih =>
    by_cases ha : locs a = none
    · refine ⟨"KeyError", ?_⟩
      rw [List.mapM_cons]
      simp only [lookupNode, ha]
      rfl
    · obtain ⟨i, hi, hnone⟩ := h
      rcases List.mem_cons.1 hi with rfl | hi
      · exact absurd hnone ha
      · obtain ⟨pa, hpa⟩ := Option.ne_none_iff_exists'.1 ha
        obtain ⟨e, he⟩ := ih ⟨i, hi, hnone⟩
        refine ⟨e, ?_⟩
        rw [List.mapM_cons, he]
        simp only [lookupNode, hpa]
        rfl

/-- Claim C7: the waypoint resolver returns exactly
`[depot] + [coord(id) for id in stop_ids] + [depot]` (length
`len(stop_ids) + 2`) when the depot and every stop id resolve, and fails with
a `KeyError` (a `LookupError`) when the depot or any stop id is absent. -/
theorem claim_C7_resolve_path (locs : ℕ → Option Point) (ids : List ℕ) :
    (∀ d, locs 0 = some d → (∀ i ∈ ids, (locs i).isSome) →
      resolve_path locs ids =
        Except.ok ([d] ++ ids.map (fun i => (locs i).getD default) ++ [d]) ∧
      ([d] ++ ids.map (fun i => (locs i).getD default) ++ [d]).length =
        ids.length + 2) ∧
    ((locs 0 = none ∨ ∃ i ∈ ids, locs i = none) →
      ∃ e, resolve_path locs ids = Except.error e) := by
  constructor
  · intro d hd hsome
    have hm := mapM_lookup_ok locs ids hsome
    constructor
    · unfold resolve_path
      rw [hm]
      simp only [lookupNode, hd]
      rfl
    · simp
  · intro h
    by_cases h0 : locs 0 = none
    · refine ⟨"KeyError", ?_⟩
      unfold resolve_path
      simp only [lookupNode, h0]
      rfl
    · obtain ⟨d, hd⟩ := Option.ne_none_iff_exists'.1 h0
      rcases h with h0' | hex
      · exact absurd h0' h0
      · obtain ⟨e, he⟩ := mapM_lookup_err locs ids hex
        refine ⟨e, ?_⟩
        unfold resolve_path
        rw [he]
        simp only [lookupNode, hd]
        rfl

/-- Witness for C7: resolving stops `[1,2,3]` against the example table gives
the depot-wrapped 5-point path, and an unknown id fails. -/
theorem claim_C7_resolve_path_witness :
    resolve_path exampleLocs [1, 2, 3] =
      Except.ok [⟨0,0⟩, ⟨2,3⟩, ⟨4,5⟩, ⟨6,7⟩, ⟨0,0⟩] ∧
    (∃ e, resolve_path exampleLocs [9] = Except.error e) := by
  have h := claim_C7_resolve_path exampleLocs [1, 2, 3]
  have h9 := claim_C7_resolve_path exampleLocs [9]
  constructor
  · have h1 := (h.1 ⟨0,0⟩ rfl (by decide)).1
    have heq : ([(⟨0,0⟩ : Point)] ++
        [1, 2, 3].map (fun i => (exampleLocs i).getD default) ++ [⟨0,0⟩]) =
        [⟨0,0⟩, ⟨2,3⟩, ⟨4,5⟩, ⟨6,7⟩, ⟨0,0⟩] := by decide
    rw [heq] at h1
    exact h1
  · exact h9.2 (Or.inr ⟨9, by decide, by decide⟩)

/-- Claim C5: for a route whose coordinate path has at least one pick stop
(length ≥ 3), every recorded stop index — padding frames included — is at
most `total_stops - 1 = len(path) - 3`, so the finished condition
(`progress ≥ total_stops`) never holds on any frame of that agent. -/
theorem claim_C5_stop_index_cap (start : Point) (paths : List (List Point))
    (S D j : ℕ) (hS : 1 ≤ S) (h3 : 3 ≤ (paths.getD j []).length) :
    (∀ k, ((create_multi_route_animation start paths S D).getD j
        default).frames.progress.getD k 0 ≤ (paths.getD j []).length - 3) ∧
    (∀ k, is_finished start
      ((create_multi_route_animation start paths S D).getD j default) k = false) := by
  have hj : j < paths.length := by
    by_contra hj
    rw [List.getD_eq_default _ _ (by omega)] at h3
    simp at h3
  exact ⟨fun k => synced_progress_getD_ub start paths S D j k hS hj h3,
    finished_false_of_stops start paths S D j hS h3⟩

/-- Witness for C5 at a one-stop route. -/
theorem claim_C5_stop_index_cap_witness :
    ((create_multi_route_animation ⟨0,0⟩ [[⟨0,0⟩, ⟨1,0⟩, ⟨0,0⟩]] 1 1).getD 0
      default).frames.progress.getD 2 0 ≤ 0 ∧
    is_finished ⟨0,0⟩
      ((create_multi_route_animation ⟨0,0⟩ [[⟨0,0⟩, ⟨1,0⟩, ⟨0,0⟩]] 1 1).getD 0
        default) 2 = false := by
  have h := claim_C5_stop_index_cap ⟨0,0⟩ [[⟨0,0⟩, ⟨1,0⟩, ⟨0,0⟩]] 1 1 0
    (by omega) (by simp)
  exact ⟨by simpa using h.1 2, h.2 2⟩

/-- Claim C4 counterexample: for the route `[d,(1,0),d,d]` (two recorded
stops) padded against a longer route, padding frame 6 sits exactly at the
depot `(0,0)` with all segments exhausted (raw length 5), yet it is *not*
marked finished — the recorded stop index 1 never reaches
`total_stops = 2`. -/
theorem claim_C4_counterexample :
    ((create_multi_route_animation ⟨0,0⟩
        [[⟨0,0⟩, ⟨1,0⟩, ⟨0,0⟩, ⟨0,0⟩], [⟨0,0⟩, ⟨1,0⟩, ⟨0,0⟩, ⟨0,0⟩, ⟨0,0⟩]]
        1 1).getD 0 default).frames.xs.getD 6 0 = 0 ∧
    ((create_multi_route_animation ⟨0,0⟩
        [[⟨0,0⟩, ⟨1,0⟩, ⟨0,0⟩, ⟨0,0⟩], [⟨0,0⟩, ⟨1,0⟩, ⟨0,0⟩, ⟨0,0⟩, ⟨0,0⟩]]
        1 1).getD 0 default).frames.ys.getD 6 0 = 0 ∧
    (rawRouteData 1 1 [⟨0,0⟩, ⟨1,0⟩, ⟨0,0⟩, ⟨0,0⟩]).frames.xs.length = 5 ∧
    ((create_multi_route_animation ⟨0,0⟩
        [[⟨0,0⟩, ⟨1,0⟩, ⟨0,0⟩, ⟨0,0⟩], [⟨0,0⟩, ⟨1,0⟩, ⟨0,0⟩, ⟨0,0⟩, ⟨0,0⟩]]
        1 1).getD 0 default).frames.xs.length = 7 ∧
    is_finished ⟨0,0⟩
      ((create_multi_route_animation ⟨0,0⟩
        [[⟨0,0⟩, ⟨1,0⟩, ⟨0,0⟩, ⟨0,0⟩], [⟨0,0⟩, ⟨1,0⟩, ⟨0,0⟩, ⟨0,0⟩, ⟨0,0⟩]]
        1 1).getD 0 default) 6 = false := by
  refine ⟨by decide, by decide, by decide, by decide, by decide⟩

/-- Claim C4 (amended): the finished flag is the check
`progress ≥ total_stops ∧ |x - depot.x| < 1 ∧ |y - depot.y| < 1`, independent
of segment exhaustion.  For a route with at least one pick stop the recorded
stop index never reaches `total_stops`, so no frame — depot-located padding
frames included — is ever marked finished; for a zero-stop route at the depot
every frame (from frame 0 on) is marked finished. -/
theorem claim_C4_amended (start : Point) (paths : List (List Point))
    (S D j : ℕ) (hS : 1 ≤ S) :
    (3 ≤ (paths.getD j []).length →
      ∀ k, is_finished start
        ((create_multi_route_animation start paths S D).getD j default) k = false) ∧
    (j < paths.length → paths.getD j [] = [start, start] →
      ∀ k, k < ((create_multi_route_animation start paths S D).getD j
          default).frames.xs.length →
        is_finished start
          ((create_multi_route_animation start paths S D).getD j default) k = true) :=
  ⟨fun h3 => finished_false_of_stops start paths S D j hS h3,
   fun hj hp => finished_true_of_depot_pair start paths S D j hS hj hp⟩

/-- Witness for C4 (amended): a one-stop route is never finished; a zero-stop
route at the depot is finished from its very first frame. -/
theorem claim_C4_amended_witness :
    is_finished ⟨0,0⟩
      ((create_multi_route_animation ⟨0,0⟩
        [[⟨0,0⟩, ⟨1,0⟩, ⟨0,0⟩], [⟨0,0⟩, ⟨0,0⟩]] 1 1).getD 0 default) 1 = false ∧
    is_finished ⟨0,0⟩
      ((create_multi_route_animation ⟨0,0⟩
        [[⟨0,0⟩, ⟨1,0⟩, ⟨0,0⟩], [⟨0,0⟩, ⟨0,0⟩]] 1 1).getD 1 default) 0 = true := by
  have h1 := claim_C4_amended ⟨0,0⟩ [[⟨0,0⟩, ⟨1,0⟩, ⟨0,0⟩], [⟨0,0⟩, ⟨0,0⟩]]
    1 1 0 (by omega)
  have h2 := claim_C4_amended ⟨0,0⟩ [[⟨0,0⟩, ⟨1,0⟩, ⟨0,0⟩], [⟨0,0⟩, ⟨0,0⟩]]
    1 1 1 (by omega)
  exact ⟨h1.1 (by simp) 1, h2.2 (by simp) (by decide) 0 (by decide)⟩

/-- Claim C8: within one agent's synthesized sequence (padding included) the
recorded stop index is monotonically non-decreasing. -/
theorem claim_C8_monotone_stop_index (start : Point) (paths : List (List Point))
    (S D j k : ℕ)
    (hk : k + 1 < ((create_multi_route_animation start paths S D).getD j
        default).frames.progress.length) :
    ((create_multi_route_animation start paths S D).getD j
      default).frames.progress.getD k 0 ≤
    ((create_multi_route_animation start paths S D).getD j
      default).frames.progress.getD (k + 1) 0 := by
  have hchain : ((create_multi_route_animation start paths S D).getD j
      default).frames.progress.Chain' (· ≤ ·) := by
    by_cases hj : j < paths.length
    · rw [create_getD start paths S D j hj]
      apply syncRouteData_progress_chain
      unfold rawRouteData
      split
      · simp
      · exact routeLoop_progress_chain _ S D _ 0 0
    · rw [List.getD_eq_default]
      · exact List.chain'_nil
      · rw [create_length]
        omega
  have hstep := List.chain'_iff_get.1 hchain k (by omega)
  have h1 : k < ((create_multi_route_animation start paths S D).getD j
      default).frames.progress.length := by omega
  have h2 : k + 1 < ((create_multi_route_animation start paths S D).getD j
      default).frames.progress.length := by omega
  have e1 := List.getD_eq_getElem ((create_multi_route_animation start paths S D).getD j
      default).frames.progress 0 h1
  have e2 := List.getD_eq_getElem ((create_multi_route_animation start paths S D).getD j
      default).frames.progress 0 h2
  rw [e1, e2]
  simpa [List.get_eq_getElem] using hstep

/-- Witness for C8 at a concrete one-stop route. -/
theorem claim_C8_monotone_stop_index_witness :
    ((create_multi_route_animation ⟨0,0⟩ [[⟨0,0⟩, ⟨1,0⟩, ⟨0,0⟩]] 1 1).getD 0
      default).frames.progress.getD 1 0 ≤
    ((create_multi_route_animation ⟨0,0⟩ [[⟨0,0⟩, ⟨1,0⟩, ⟨0,0⟩]] 1 1).getD 0
      default).frames.progress.getD 2 0 :=
  claim_C8_monotone_stop_index ⟨0,0⟩ [[⟨0,0⟩, ⟨1,0⟩, ⟨0,0⟩]] 1 1 0 1 (by decide)

/-- Claim C2: `max_frames` is the maximum raw length over all paths; every
synthesized sequence has length exactly `max_frames` (in all four frame
arrays); a shorter path is padded by repeating its final frame — position and
stop index unchanged, `picking = False` on every padding frame. -/
theorem claim_C2_synchronization (start : Point) (paths : List (List Point))
    (S D : ℕ) :
    (∀ rd ∈ create_multi_route_animation start paths S D,
      rd.frames.xs.length = maxFramesOf (paths.map (rawRouteData S D)) ∧
      rd.frames.ys.length = maxFramesOf (paths.map (rawRouteData S D)) ∧
      rd.frames.progress.length = maxFramesOf (paths.map (rawRouteData S D)) ∧
      rd.frames.picking.length = maxFramesOf (paths.map (rawRouteData S D))) ∧
    (∀ p ∈ paths, (rawRouteData S D p).frames.xs.length ≤
      maxFramesOf (paths.map (rawRouteData S D))) ∧
    (paths ≠ [] → ∃ p ∈ paths, (rawRouteData S D p).frames.xs.length =
      maxFramesOf (paths.map (rawRouteData S D))) ∧
    (∀ j k, j < paths.length →
      0 < (rawRouteData S D (paths.getD j [])).frames.xs.length →
      (rawRouteData S D (paths.getD j [])).frames.xs.length ≤ k →
      k < maxFramesOf (paths.map (rawRouteData S D)) →
      ((create_multi_route_animation start paths S D).getD j
          default).frames.xs.getD k 0 =
        (rawRouteData S D (paths.getD j [])).frames.xs.getLastD 0 ∧
      ((create_multi_route_animation start paths S D).getD j
          default).frames.ys.getD k 0 =
        (rawRouteData S D (paths.getD j [])).frames.ys.getLastD 0 ∧
      ((create_multi_route_animation start paths S D).getD j
          default).frames.progress.getD k 0 =
        (rawRouteData S D (paths.getD j [])).frames.progress.getLastD 0 ∧
      ((create_multi_route_animation start paths S D).getD j
          default).frames.picking.getD k false = false) := by
  refine ⟨?_, ?_, ?_, ?_⟩
  · intro rd hrd
    unfold create_multi_route_animation at hrd
    obtain ⟨r, hr, rfl⟩ := List.mem_map.1 hrd
    have hle := maxFramesOf_ge (paths.map (rawRouteData S D)) r hr
    obtain ⟨p, hp, rfl⟩ := List.mem_map.1 hr
    have hlens := rawRouteData_lens S D p
    exact syncRouteData_lengths start _ _ hle hlens.1 hlens.2.1 hlens.2.2
  · intro p hp
    exact maxFramesOf_ge _ _ (List.mem_map_of_mem _ hp)
  · intro hne
    have hne2 : paths.map (rawRouteData S D) ≠ [] := by
      simpa using hne
    obtain ⟨rd, hrd, hlen⟩ := maxFramesOf_attained _ hne2
    obtain ⟨p, hp, rfl⟩ := List.mem_map.1 hrd
    exact ⟨p, hp, hlen⟩
  · intro j k hj h0 hk1 hk2
    rw [create_getD start paths S D j hj]
    have hlens := rawRouteData_lens S D (paths.getD j [])
    exact syncRouteData_pad_content start _ _ k h0 hk1 hk2
      hlens.1 hlens.2.1 hlens.2.2

/-- Witness for C2 at two paths with raw lengths 13 and 21: the first entry is
13 ≤ 21 = `max_frames`, the maximum is attained, and padding frame 15 of the
shorter route repeats its final frame with `picking = False`. -/
theorem claim_C2_synchronization_witness :
    ((create_multi_route_animation ⟨0,0⟩
        [[⟨0,0⟩, ⟨3,4⟩, ⟨0,0⟩], [⟨0,0⟩, ⟨3,4⟩, ⟨6,0⟩, ⟨0,0⟩]] 5 3).getD 0
      default).frames.xs.length =
      maxFramesOf ([[⟨0,0⟩, ⟨3,4⟩, ⟨0,0⟩],
        [⟨0,0⟩, ⟨3,4⟩, ⟨6,0⟩, ⟨0,0⟩]].map (rawRouteData 5 3)) ∧
    (rawRouteData 5 3 [⟨0,0⟩, ⟨3,4⟩, ⟨0,0⟩]).frames.xs.length ≤
      maxFramesOf ([[⟨0,0⟩, ⟨3,4⟩, ⟨0,0⟩],
        [⟨0,0⟩, ⟨3,4⟩, ⟨6,0⟩, ⟨0,0⟩]].map (rawRouteData 5 3)) ∧
    (∃ p ∈ [[⟨0,0⟩, ⟨3,4⟩, ⟨0,0⟩], [⟨0,0⟩, ⟨3,4⟩, ⟨6,0⟩, ⟨0,0⟩]],
      (rawRouteData 5 3 p).frames.xs.length =
        maxFramesOf ([[⟨0,0⟩, ⟨3,4⟩, ⟨0,0⟩],
          [⟨0,0⟩, ⟨3,4⟩, ⟨6,0⟩, ⟨0,0⟩]].map (rawRouteData 5 3))) ∧
    ((create_multi_route_animation ⟨0,0⟩
        [[⟨0,0⟩, ⟨3,4⟩, ⟨0,0⟩], [⟨0,0⟩, ⟨3,4⟩, ⟨6,0⟩, ⟨0,0⟩]] 5 3).getD 0
      default).frames.xs.getD 15 0 =
      (rawRouteData 5 3 [⟨0,0⟩, ⟨3,4⟩, ⟨0,0⟩]).frames.xs.getLastD 0 ∧
    ((create_multi_route_animation ⟨0,0⟩
        [[⟨0,0⟩, ⟨3,4⟩, ⟨0,0⟩], [⟨0,0⟩, ⟨3,4⟩, ⟨6,0⟩, ⟨0,0⟩]] 5 3).getD 0
      default).frames.picking.getD 15 false = false := by
  have h := claim_C2_synchronization ⟨0,0⟩
    [[⟨0,0⟩, ⟨3,4⟩, ⟨0,0⟩], [⟨0,0⟩, ⟨3,4⟩, ⟨6,0⟩, ⟨0,0⟩]] 5 3
  have hmem : ((create_multi_route_animation ⟨0,0⟩
      [[⟨0,0⟩, ⟨3,4⟩, ⟨0,0⟩], [⟨0,0⟩, ⟨3,4⟩, ⟨6,0⟩, ⟨0,0⟩]] 5 3).getD 0
      default) ∈ create_multi_route_animation ⟨0,0⟩
      [[⟨0,0⟩, ⟨3,4⟩, ⟨0,0⟩], [⟨0,0⟩, ⟨3,4⟩, ⟨6,0⟩, ⟨0,0⟩]] 5 3 := by
    have hlen : 0 < (create_multi_route_animation ⟨0,0⟩
        [[⟨0,0⟩, ⟨3,4⟩, ⟨0,0⟩], [⟨0,0⟩, ⟨3,4⟩, ⟨6,0⟩, ⟨0,0⟩]] 5 3).length := by
      rw [create_length]
      simp
    rw [List.getD_eq_getElem _ _ hlen]
    exact List.getElem_mem _
  have hpad := h.2.2.2 0 15 (by simp) (by decide) (by decide) (by decide)
  exact ⟨(h.1 _ hmem).1, h.2.1 _ (by simp), h.2.2.1 (by simp),
    hpad.1, hpad.2.2.2⟩
